import Mathlib

/-! Verification of the context compaction subsystem (`src/agents/context-summarizer.ts`).

A shallow embedding of the TypeScript module that loads pre-computed rolling
summaries and combines them with a trailing window of verbatim recent messages.

Modelling conventions:
* JavaScript runtime values that the module inspects dynamically (message
  `content`, timestamp fields, the raw result of `JSON.parse`) are embedded as
  the inductive type `JsValue`.  Numbers are modelled as integers (the module
  only manipulates lengths and epoch-millisecond timestamps; float-specific
  behaviour is out of scope; the one `NaN` the module can observe is the time
  value of an Invalid `Date` object, modelled explicitly).  `Date` objects
  carry their time value: an epoch-millisecond integer, or `none` for the
  `NaN` time value of an Invalid Date such as `new Date("bogus")`.
* The JS engine string-to-date coercion (`new Date(string)`) is an engine
  primitive, not code of this repository; it is passed in as an explicit
  parameter `dateParse : String → Option Int` (`none` models an invalid date).
  Likewise `JSON.parse` is passed in as `jsonParse : String → Option JsValue`
  (`none` models a parse exception, which the module catches).
* The filesystem is passed in as `fsRead : String → FsRead`, keyed by path:
  `absent` models `existsSync` returning false, `readError` models
  `readFileSync` throwing, `ok raw` a successful read.
* TypeScript exceptions that the module does *not* catch (property access on
  `undefined`/`null`, calling a missing method) are modelled with
  `Except JsError`.
-/

/-- A JavaScript runtime value, restricted to the shapes the module inspects.
Numbers are integers; `date` is a `Date` object carrying its time value —
epoch milliseconds, or `none` for the `NaN` time value of an Invalid Date
(a `Date` instance such as `new Date("bogus")`); `obj` is a plain object as
an association list of own properties in insertion order. -/
inductive JsValue where
  | str (s : String)
  | num (n : Int)
  | jsBool (b : Bool)
  | null
  | undefined
  | date (timeValue : Option Int)
  | arr (elems : List JsValue)
  | obj (fields : List (String × JsValue))
deriving Repr

/-- An exception escaping the module (the only kind reachable in the modelled
paths is a `TypeError` from accessing a property of `undefined`/`null` or
calling a missing method). -/
inductive JsError where
  | typeError
deriving Repr, DecidableEq

mutual
/-- JS `String(v)` coercion for the value shapes of `JsValue`.  Faithful for
primitives and arrays; the engine human-readable rendering of `Date`
objects is not modelled precisely (no claim depends on it). -/
def jsString : JsValue → String
  | .str s => s
  | .num n => toString n
  | .jsBool b => cond b "true" "false"
  | .null => "null"
  | .undefined => "undefined"
  | .date (some t) => "Date(" ++ toString t ++ ")"
  | .date none => "Invalid Date"
  | .arr vs => jsStringList vs
  | .obj _ => "[object Object]"

/-- JS array-to-string: elements joined by commas, with `null` and
`undefined` elements rendering as empty. -/
def jsStringList : List JsValue → String
  | [] => ""
  | [.null] => ""
  | [.undefined] => ""
  | [v] => jsString v
  | .null :: rest => "," ++ jsStringList rest
  | .undefined :: rest => "," ++ jsStringList rest
  | v :: rest => jsString v ++ "," ++ jsStringList rest
end

/-- Non-throwing property read `v[k]` on a value already known non-nullish
(also models optional chaining `v?.[k]`): objects look up their own
properties, arrays and strings expose `length`, everything else yields
`undefined`. -/
def jsGet (v : JsValue) (k : String) : JsValue :=
  match v with
  | .obj fields =>
    match fields.find? (fun p => p.1 == k) with
    | some p => p.2
    | none => .undefined
  | .arr l => if k == "length" then .num l.length else .undefined
  | .str s => if k == "length" then .num s.length else .undefined
  | _ => .undefined

/-- Throwing property read `v.k`: a `TypeError` when the base is `null` or
`undefined`, otherwise `jsGet`. -/
def jsGetProp (v : JsValue) (k : String) : Except JsError JsValue :=
  match v with
  | .null => .error .typeError
  | .undefined => .error .typeError
  | _ => .ok (jsGet v k)

/-- JS nullish coalescing `a ?? b`. -/
def jsNullish (a b : JsValue) : JsValue :=
  match a with
  | .null => b
  | .undefined => b
  | _ => a

/-- JS truthiness of a value. -/
def jsTruthy : JsValue → Bool
  | .undefined => false
  | .null => false
  | .jsBool b => b
  | .num n => n != 0
  | .str s => s != ""
  | .date _ => true
  | .arr _ => true
  | .obj _ => true

/-- JS strict equality `v === n` against a number literal. -/
def jsStrictEqNum (v : JsValue) (n : Int) : Bool :=
  match v with
  | .num m => m == n
  | _ => false

/-! Section: Token estimator (`estimateTokens`, lines 41–57)

Direct translation of the accumulation loop: a string content contributes its
length; an array content contributes per block the block length if it is a
string, else `String(block.text ?? "").length` if the block is a non-null
object with a `text` property, else nothing; any other content shape
contributes nothing.  Finally `Math.ceil(chars / 4)`.
-/

/-- The body of the inner `for (const block of content)` loop: the
contribution added to `chars` for one content block.  `arr`, `date` values
are `typeof "object"` but never satisfy the `"text" in block` test (no `text`
own property), and `null` fails the `block &&` guard, so all of them fall to
the zero case, as in the source. -/
def blockChars (block : JsValue) : Nat :=
  match block with
  | .str s => s.length
  | .obj fields =>
    if fields.any (fun p => p.1 == "text") then
      (jsString (jsNullish (jsGet (.obj fields) "text") (.str ""))).length
    else 0
  | _ => 0

/-- Source function `estimateTokens` (lines 41–57): sum of content character counts,
then `Math.ceil(chars / 4)`, written on naturals as `(chars + 3) / 4`.
The two `for` loops become left folds over the same accumulator. -/
def estimateTokens (messages : List JsValue) : Nat :=
  let chars := messages.foldl
    (fun chars msg =>
      match jsGet msg "content" with
      | .str s => chars + s.length
      | .arr content => content.foldl (fun chars block => chars + blockChars block) chars
      | _ => chars)
    0
  (chars + 3) / 4

/-! Section: Timestamp extraction (`extractTimestamp`, lines 62–71)
-/

/-- Maximum epoch-millisecond magnitude of a valid JS `Date`
(ECMA-262 time value range: ±8.64e15 ms). -/
def MAX_JS_TIME : Int := 8640000000000000

/-- The coercion applied to the selected candidate value in
`extractTimestamp`.  The result is the returned `Date | null` value: `none`
is the `null` return, `some tv` a returned `Date` object with time value
`tv` (`some none` being an Invalid Date).  The `instanceof Date` branch
(line 65) returns the object **without any validity check** — the `isNaN`
guard on line 68 covers only the string/number path — so an Invalid Date
passes through as `some none`.  A string goes through the engine date
parser and is returned only when valid; a number yields a valid date iff it
is within the JS time-value range; anything else returns `null`. -/
def coerceTimestamp (dateParse : String → Option Int) :
    JsValue → Option (Option Int)
  | .date tv => some tv
  | .str s => (dateParse s).map some
  | .num n => if n.natAbs ≤ MAX_JS_TIME.natAbs then some (some n) else none
  | _ => none

/-- Source function `extractTimestamp` (lines 62–71): the candidate value is
selected by the nullish chain `msg.timestamp ?? msg.ts ?? msg.createdAt`,
then coerced.  `none` models the `null` return; `some none` a returned
Invalid Date; `some (some t)` a returned valid `Date` with time value `t`. -/
def extractTimestamp (dateParse : String → Option Int) (msg : JsValue) :
    Option (Option Int) :=
  coerceTimestamp dateParse
    (jsNullish (jsGet msg "timestamp")
      (jsNullish (jsGet msg "ts") (jsGet msg "createdAt")))

/-! Section: Data model (`StoredSummary`, `SummaryFile`, `CompactedContext`)

`summaryPrefix` from the source is named `summaryPrefixText` here.
-/

/-- One rolling-window summary (interface `StoredSummary`, lines 17–23). -/
structure StoredSummary where
  period : String
  hourKey : String
  text : String
  messageCount : Int
  createdAt : String
deriving Repr, DecidableEq

/-- The persisted per-session record (interface `SummaryFile`, lines 25–29).
`lastSummarizedAt : string | null` becomes an `Option`. -/
structure SummaryFile where
  summaries : List StoredSummary
  lastSummarizedAt : Option String
  lastProcessedLine : Int
deriving Repr, DecidableEq

/-- The output value (interface `CompactedContext`, lines 31–36). -/
structure CompactedContext where
  summaryPrefixText : String
  recentMessages : List JsValue
  wasSummarized : Bool
  summaryCount : Int
deriving Repr

/-- The `JsValue` encoding of a well-formed `StoredSummary` record as
`JSON.parse` would produce it. -/
def encodeStoredSummary (s : StoredSummary) : JsValue :=
  .obj [("period", .str s.period), ("hourKey", .str s.hourKey),
        ("text", .str s.text), ("messageCount", .num s.messageCount),
        ("createdAt", .str s.createdAt)]

/-- The `JsValue` encoding of a well-formed `SummaryFile` document as
`JSON.parse` would produce it. -/
def encodeSummaryFile (sf : SummaryFile) : JsValue :=
  .obj [("summaries", .arr (sf.summaries.map encodeStoredSummary)),
        ("lastSummarizedAt",
          match sf.lastSummarizedAt with
          | some s => .str s
          | none => .null),
        ("lastProcessedLine", .num sf.lastProcessedLine)]

/-! Section: Summary store reader (`loadStoredSummaries`, lines 76–87)
-/

/-- Outcome of attempting to read a file: `absent` models `existsSync`
returning `false`; `readError` models `readFileSync` throwing (caught by the
source `try`/`catch`); `ok raw` a successful read of the raw text. -/
inductive FsRead where
  | absent
  | readError
  | ok (raw : String)

/-- Constant `SESSIONS_DIR = path.join(os.homedir(), ".clawdis", "sessions")` (line 14). -/
def SESSIONS_DIR (home : String) : String := home ++ "/.clawdis/sessions"

/-- The per-session summary path (line 77). -/
def summaryPath (home sessionId : String) : String :=
  SESSIONS_DIR home ++ "/" ++ sessionId ++ ".summary.json"

/-- Source function `loadStoredSummaries` (lines 76–87).  Returns the raw `JSON.parse` result
of the file: the `as SummaryFile` cast in the source performs no runtime
validation, so the result is an arbitrary `JsValue`.  A missing file, a read
exception, or a `JSON.parse` exception (`jsonParse _ = none`) all yield
`none` via the `try`/`catch`. -/
def loadStoredSummaries (fsRead : String → FsRead)
    (jsonParse : String → Option JsValue) (home sessionId : String) :
    Option JsValue :=
  match fsRead (summaryPath home sessionId) with
  | .absent => none
  | .readError => none
  | .ok raw => jsonParse raw

/-! Section: Summary formatting (`formatSummariesAsContext`, lines 92–104)

The source file bullet literal is the three characters rendered
(in UTF-8) as a-circumflex, euro sign, cent sign — the UTF-8 bytes of a
bullet character re-decoded as Windows-1252 (mojibake).  The embedding
reproduces the file literal bytes exactly.
-/

/-- The fixed header line (line 97, including its trailing newline). -/
def SUMMARY_HEADER : String :=
  "[Context: Earlier conversation summary - for reference only]\n"

/-- The fixed footer (line 103: a leading newline, the line, a newline). -/
def SUMMARY_FOOTER : String :=
  "\n[End summary - respond briefly to recent messages below]\n"

/-- The bullet-line template of line 100, applied to a typed summary:
the literal in the source file is the mojibake sequence \xc3\xa2 \xe2\x82\xac
\xc2\xa2 followed by a space, then the interpolated fields. -/
def bulletLine (s : StoredSummary) : String :=
  "â€¢ " ++ s.period ++ ": " ++ s.text

/-- Source function `formatSummariesAsContext` (lines 92–104) on a well-typed argument, as
its TypeScript signature `(summaries: StoredSummary[]) => string` states:
empty input yields the empty string; otherwise `slice(-6)` keeps the last
`min(n, 6)` entries (`List.drop (n - 6)`), each is rendered by the bullet
template, joined with newlines, and framed by the fixed header and footer. -/
def formatSummariesAsContext (summaries : List StoredSummary) : String :=
  if summaries.length = 0 then ""
  else
    SUMMARY_HEADER
      ++ String.intercalate "\n"
          ((summaries.drop (summaries.length - 6)).map bulletLine)
      ++ SUMMARY_FOOTER

/-- Method call `arr.slice(-k)` or `str.slice(-k)` for `k > 0`: the last `min(k, length)`
elements; calling `slice` on any other value is a `TypeError` (no such
method). -/
def jsSliceFromEnd (v : JsValue) (k : Nat) : Except JsError JsValue :=
  match v with
  | .arr l => .ok (.arr (l.drop (l.length - k)))
  | .str s => .ok (.str (String.mk (s.data.drop (s.data.length - k))))
  | _ => .error .typeError

/-- Effectful map, propagating the first exception (models `Array.map` with a
callback that may throw). -/
def mapExcept (f : α → Except ε β) : List α → Except ε (List β)
  | [] => .ok []
  | a :: rest =>
    match f a with
    | .error e => .error e
    | .ok b =>
      match mapExcept f rest with
      | .error e => .error e
      | .ok bs => .ok (b :: bs)

/-- The map callback of line 100 on a runtime value: the template literal
coerces `s.period` and `s.text` with `String(...)`; property access throws on
a nullish element. -/
def bulletLineRaw (s : JsValue) : Except JsError String :=
  match jsGetProp s "period" with
  | .error e => .error e
  | .ok p =>
    match jsGetProp s "text" with
    | .error e => .error e
    | .ok t => .ok ("â€¢ " ++ jsString p ++ ": " ++ jsString t)

/-- Source function `formatSummariesAsContext` on the runtime value it actually receives from
`loadCompactedContext` (TypeScript types are erased at runtime, and the
loader `as SummaryFile` cast is unchecked, so the argument may be any
`JsValue`): reads `summaries.length` (throws on a nullish argument), returns
the empty string on strict equality with `0`, else calls `slice(-6)` (throws
if absent) and `.map` (only arrays: a string result of `slice` has no `map`),
then joins and frames. -/
def formatSummariesAsContextRaw (summaries : JsValue) : Except JsError String :=
  match jsGetProp summaries "length" with
  | .error e => .error e
  | .ok len =>
    if jsStrictEqNum len 0 then .ok ""
    else
      match jsSliceFromEnd summaries 6 with
      | .error e => .error e
      | .ok recent =>
        match recent with
        | .arr items =>
          match mapExcept bulletLineRaw items with
          | .error e => .error e
          | .ok bullets =>
            .ok (SUMMARY_HEADER ++ String.intercalate "\n" bullets ++ SUMMARY_FOOTER)
        | _ => .error .typeError

/-! Section: Context assembler (`loadCompactedContext`, lines 109–153)
-/

/-- Constant `KEEP_RECENT_MINUTES` (line 15). -/
def KEEP_RECENT_MINUTES : Int := 60

/-- The body of the filtering loop (lines 121–128),
`!ts || ts >= cutoffTime`: keep a message when extraction returned `null`,
or when the returned `Date` compares at or after the cutoff.  An Invalid
Date is truthy but its `NaN` time value makes `ts >= cutoffTime` evaluate
to `false`, so such a message is dropped. -/
def keepMessage (dateParse : String → Option Int) (cutoffTime : Int)
    (msg : JsValue) : Bool :=
  match extractTimestamp dateParse msg with
  | none => true
  | some none => false
  | some (some ts) => decide (cutoffTime ≤ ts)

/-- Source function `loadCompactedContext` (lines 109–153).  `now` is the epoch-millisecond
value of `new Date()`; the cutoff is `now - KEEP_RECENT_MINUTES * 60 * 1000`.
The loaded value is the raw `JSON.parse` result (the `as SummaryFile` cast is
unchecked), so the accesses `summaryFile.summaries` and `.length` can throw;
the `console.log` of line 142 is an observability side effect with no bearing
on the returned value and is not modelled.  The final `summaryCount` reuses
the same pure property read `summaryFile.summaries.length`; in every
non-throwing path that reaches it the value is a number (the formatter has
already succeeded, which forces `summaries` to be an array), and the
unreachable non-numeric branch is mapped to an error. -/
def loadCompactedContext (fsRead : String → FsRead)
    (jsonParse : String → Option JsValue) (dateParse : String → Option Int)
    (home : String) (now : Int) (sessionId : String)
    (allMessages : List JsValue) : Except JsError CompactedContext :=
  let summaryFile := loadStoredSummaries fsRead jsonParse home sessionId
  let cutoffTime := now - KEEP_RECENT_MINUTES * 60 * 1000
  let recentMessages := allMessages.filter (keepMessage dateParse cutoffTime)
  match summaryFile with
  | none => .ok ⟨"", allMessages, false, 0⟩
  | some sfv =>
    if jsTruthy sfv then
      match jsGetProp sfv "summaries" with
      | .error e => .error e
      | .ok summaries =>
        match jsGetProp summaries "length" with
        | .error e => .error e
        | .ok len =>
          if jsStrictEqNum len 0 then .ok ⟨"", allMessages, false, 0⟩
          else
            match formatSummariesAsContextRaw summaries with
            | .error e => .error e
            | .ok body =>
              match len with
              | .num n => .ok ⟨body, recentMessages, true, n⟩
              | _ => .error .typeError
    else .ok ⟨"", allMessages, false, 0⟩

/-! Section: Helper lemmas
-/

/-- Per-message character contribution, written as the spec describes it
(sum per shape) rather than as the source accumulator fold. -/
def messageChars (msg : JsValue) : Nat :=
  match jsGet msg "content" with
  | .str s => s.length
  | .arr blocks => (blocks.map blockChars).sum
  | _ => 0

/-- Total character count of a message sequence. -/
def totalChars (messages : List JsValue) : Nat :=
  (messages.map messageChars).sum

theorem blockChars_foldl (blocks : List JsValue) (a : Nat) :
    blocks.foldl (fun c b => c + blockChars b) a = a + (blocks.map blockChars).sum := by
  induction blocks generalizing a with
  | nil => simp
  | cons b rest ih => simp [List.foldl_cons, ih, Nat.add_assoc]

theorem estimateTokens_eq_totalChars (messages : List JsValue) :
    estimateTokens messages = (totalChars messages + 3) / 4 := by
  have key : ∀ (l : List JsValue) (a : Nat),
      l.foldl (fun chars msg =>
        match jsGet msg "content" with
        | .str s => chars + s.length
        | .arr content => content.foldl (fun chars block => chars + blockChars block) chars
        | _ => chars) a = a + totalChars l := by
    intro l
    induction l with
    | nil => intro a; simp [totalChars]
    | cons m rest ih =>
      intro a
      rw [List.foldl_cons, ih]
      have : (match jsGet m "content" with
        | .str s => a + s.length
        | .arr content => content.foldl (fun chars block => chars + blockChars block) a
        | _ => a) = a + messageChars m := by
        unfold messageChars
        cases jsGet m "content" with
        | str s => rfl
        | arr content => exact blockChars_foldl content a
        | _ => simp
      rw [this]
      simp [totalChars, Nat.add_assoc]
  unfold estimateTokens
  rw [key]
  simp

theorem jsTruthy_encodeSummaryFile (sf : SummaryFile) :
    jsTruthy (encodeSummaryFile sf) = true := rfl

theorem jsGetProp_encode_summaries (sf : SummaryFile) :
    jsGetProp (encodeSummaryFile sf) "summaries"
      = .ok (.arr (sf.summaries.map encodeStoredSummary)) := rfl

theorem jsGetProp_arr_length (l : List JsValue) :
    jsGetProp (.arr l) "length" = .ok (.num l.length) := rfl

theorem bulletLineRaw_encode (s : StoredSummary) :
    bulletLineRaw (encodeStoredSummary s) = .ok (bulletLine s) := by
  simp [bulletLineRaw, encodeStoredSummary, jsGetProp, jsGet, jsString, bulletLine]

theorem mapExcept_bulletLineRaw_encode (l : List StoredSummary) :
    mapExcept bulletLineRaw (l.map encodeStoredSummary) = .ok (l.map bulletLine) := by
  induction l with
  | nil => rfl
  | cons s rest ih => simp [List.map_cons, mapExcept, bulletLineRaw_encode, ih]

theorem formatRaw_encode (l : List StoredSummary) :
    formatSummariesAsContextRaw (.arr (l.map encodeStoredSummary))
      = .ok (formatSummariesAsContext l) := by
  unfold formatSummariesAsContextRaw formatSummariesAsContext
  rw [jsGetProp_arr_length, List.length_map]
  by_cases hz : l.length = 0
  · simp [jsStrictEqNum, hz]
  · have hb : jsStrictEqNum (.num (l.length : Int)) 0 = false := by
      have hne : ((l.length : Int)) ≠ 0 := by exact_mod_cast hz
      simp [jsStrictEqNum, hne]
    simp only [hb, if_neg hz, Bool.false_eq_true, if_false, jsSliceFromEnd, List.length_map,
      ← List.map_drop, mapExcept_bulletLineRaw_encode]

theorem formatSummariesAsContext_ne_empty (l : List StoredSummary)
    (h : l.length ≠ 0) : formatSummariesAsContext l ≠ "" := by
  unfold formatSummariesAsContext
  rw [if_neg h]
  intro contra
  have hlen := congrArg String.length contra
  rw [String.length_append, String.length_append] at hlen
  have h1 : SUMMARY_HEADER.length = 61 := rfl
  have h2 : String.length "" = 0 := rfl
  rw [h1, h2] at hlen
  omega

theorem loadCompactedContext_of_load_none
    (fsRead : String → FsRead) (jsonParse : String → Option JsValue)
    (dateParse : String → Option Int) (home : String) (now : Int)
    (sessionId : String) (allMessages : List JsValue)
    (hload : loadStoredSummaries fsRead jsonParse home sessionId = none) :
    loadCompactedContext fsRead jsonParse dateParse home now sessionId allMessages
      = .ok ⟨"", allMessages, false, 0⟩ := by
  simp only [loadCompactedContext, hload]

theorem loadCompactedContext_of_load_encode
    (fsRead : String → FsRead) (jsonParse : String → Option JsValue)
    (dateParse : String → Option Int) (home : String) (now : Int)
    (sessionId : String) (allMessages : List JsValue) (sf : SummaryFile)
    (hload : loadStoredSummaries fsRead jsonParse home sessionId
      = some (encodeSummaryFile sf)) :
    loadCompactedContext fsRead jsonParse dateParse home now sessionId allMessages
      = if sf.summaries.length = 0 then .ok ⟨"", allMessages, false, 0⟩
        else .ok ⟨formatSummariesAsContext sf.summaries,
          allMessages.filter
            (keepMessage dateParse (now - KEEP_RECENT_MINUTES * 60 * 1000)),
          true, (sf.summaries.length : Int)⟩ := by
  simp only [loadCompactedContext, hload, jsTruthy_encodeSummaryFile, if_true,
    jsGetProp_encode_summaries, jsGetProp_arr_length, List.length_map]
  by_cases hz : sf.summaries.length = 0
  · simp [jsStrictEqNum, hz]
  · have hb : jsStrictEqNum (.num (sf.summaries.length : Int)) 0 = false := by
      have hne : ((sf.summaries.length : Int)) ≠ 0 := by exact_mod_cast hz
      simp [jsStrictEqNum, hne]
    simp only [hb, Bool.false_eq_true, if_false, if_neg hz,
      formatRaw_encode]

theorem loadCompactedContext_ok_recent
    (fsRead : String → FsRead) (jsonParse : String → Option JsValue)
    (dateParse : String → Option Int) (home : String) (now : Int)
    (sessionId : String) (allMessages : List JsValue) (ctx : CompactedContext)
    (h : loadCompactedContext fsRead jsonParse dateParse home now sessionId allMessages
      = .ok ctx) :
    ctx.recentMessages = allMessages ∨
    ctx.recentMessages = allMessages.filter
      (keepMessage dateParse (now - KEEP_RECENT_MINUTES * 60 * 1000)) := by
  simp only [loadCompactedContext] at h
  cases hsf : loadStoredSummaries fsRead jsonParse home sessionId with
  | none =>
    rw [hsf] at h
    simp only [Except.ok.injEq] at h
    rw [← h]
    exact Or.inl rfl
  | some sfv =>
    rw [hsf] at h
    dsimp only at h
    by_cases ht : jsTruthy sfv
    · rw [if_pos ht] at h
      cases hs : jsGetProp sfv "summaries" with
      | error e => rw [hs] at h; cases h
      | ok summaries =>
        rw [hs] at h
        dsimp only at h
        cases hl : jsGetProp summaries "length" with
        | error e => rw [hl] at h; cases h
        | ok len =>
          rw [hl] at h
          dsimp only at h
          by_cases hz : jsStrictEqNum len 0
          · rw [if_pos hz] at h
            simp only [Except.ok.injEq] at h
            rw [← h]
            exact Or.inl rfl
          · rw [if_neg hz] at h
            cases hf : formatSummariesAsContextRaw summaries with
            | error e => rw [hf] at h; cases h
            | ok body =>
              rw [hf] at h
              dsimp only at h
              cases len with
              | num n =>
                simp only [Except.ok.injEq] at h
                rw [← h]
                exact Or.inr rfl
              | str s => cases h
              | jsBool b => cases h
              | null => cases h
              | undefined => cases h
              | date t => cases h
              | arr l => cases h
              | obj fs => cases h
    · rw [if_neg ht] at h
      simp only [Except.ok.injEq] at h
      rw [← h]
      exact Or.inl rfl

/-! Section: Spec-side definitions used by the claims
-/

/-- Per the wording of claim C6 (spec section 4.3): try the candidate fields
in order and return the first one that is present and coercible to a valid
point in time, skipping candidates that are present but not coercible
(including a field holding an Invalid Date, which is not a valid point in
time). -/
def specExtractTimestamp (dateParse : String → Option Int) (msg : JsValue) :
    Option Int :=
  match coerceTimestamp dateParse (jsGet msg "timestamp") with
  | some (some t) => some t
  | _ =>
    match coerceTimestamp dateParse (jsGet msg "ts") with
    | some (some t) => some t
    | _ =>
      match coerceTimestamp dateParse (jsGet msg "createdAt") with
      | some (some t) => some t
      | _ => none

/-- First non-nullish value in a list (`undefined` when all are nullish),
the selection the source nullish chain actually performs. -/
def firstNonNullish : List JsValue → JsValue
  | [] => .undefined
  | v :: rest =>
    match v with
    | .null => firstNonNullish rest
    | .undefined => firstNonNullish rest
    | v => v

/-- The amended claim C6: the first candidate field holding a non-nullish
value is selected, and only that value is coerced; when it is not coercible
the extraction yields nothing without consulting later fields. -/
def amendedExtractTimestamp (dateParse : String → Option Int) (msg : JsValue) :
    Option (Option Int) :=
  coerceTimestamp dateParse
    (firstNonNullish [jsGet msg "timestamp", jsGet msg "ts", jsGet msg "createdAt"])

theorem coerce_nullish_chain (dp : String → Option Int) (a b c : JsValue) :
    coerceTimestamp dp (jsNullish a (jsNullish b c))
      = coerceTimestamp dp (firstNonNullish [a, b, c]) := by
  cases a <;> cases b <;> cases c <;> rfl

/-! Section: Witness fixtures (concrete inputs used by witness theorems)
-/

/-- A date parser on which every string is invalid (any engine behaves like
this on inputs such as "not-a-date"). -/
def dpNone : String → Option Int := fun _ => none

/-- A store whose file exists and reads successfully. -/
def fsW : String → FsRead := fun _ => .ok "stored"

/-- A single stored summary. -/
def summaryA : StoredSummary := ⟨"09:00", "h1", "hello", 2, "c1"⟩

/-- A summary file with one summary. -/
def sfW1 : SummaryFile := ⟨[summaryA], some "t", 5⟩

/-- A JSON parser mapping every read to the well-typed encoding of `sfW1`. -/
def jpW1 : String → Option JsValue := fun _ => some (encodeSummaryFile sfW1)

/-- A message with no timestamp-bearing field. -/
def msgNoTs : JsValue := .obj [("role", .str "user")]

/-- A message whose timestamp is a valid `Date` exactly at the cutoff for
`now = 10000000`. -/
def msgAtCutoff : JsValue := .obj [("timestamp", .date (some 6400000))]

/-- A message whose `timestamp` field holds an Invalid Date object (for
example `new Date("bogus")`): a `Date` instance whose time value is `NaN`. -/
def msgInvalidDate : JsValue := .obj [("timestamp", .date none)]

/-- A message whose `timestamp` field is an unparseable string while its `ts`
field is a valid number. -/
def msgMixedTs : JsValue :=
  .obj [("timestamp", .str "not-a-date"), ("ts", .num 12345)]

/-! Section: Claims
-/

/-- Claim C6 counterexample: on a message whose `timestamp` field is present
but not coercible (an unparseable string) while its `ts` field holds a valid
number, the code returns no timestamp, whereas the claimed first-present-
and-coercible-wins rule would return the `ts` value. -/
theorem claim_C6_counterexample :
    extractTimestamp dpNone msgMixedTs = none
    ∧ specExtractTimestamp dpNone msgMixedTs = some 12345 := ⟨rfl, rfl⟩

/-- Claim C6 (corrected): timestamp extraction checks the ordered candidate
fields `timestamp`, `ts`, `createdAt`, but the first field holding a
non-nullish value wins outright: its value is coerced, and if the coercion
fails no later candidate is consulted (later candidates are reached only when
every earlier field is absent, `null`, or `undefined`). -/
theorem claim_C6_amended (dp : String → Option Int) (msg : JsValue) :
    extractTimestamp dp msg = amendedExtractTimestamp dp msg := by
  unfold extractTimestamp amendedExtractTimestamp
  exact coerce_nullish_chain dp _ _ _

/-- Claim C7: `estimateTokens` returns exactly the ceiling of the total
character count divided by 4, where the total sums per message the content
string length, or per content block the block length (string block) or
the rendered `text` field length (object block exposing `text`), and zero for
every other shape (`totalChars`, `messageChars` and `blockChars` spell out
these rules); the two inequalities state that the result is the exact
rounded-up quotient.  Totality of the definitions models that the function
never throws on malformed content. -/
theorem claim_C7_estimate_is_ceil (messages : List JsValue) :
    estimateTokens messages = (totalChars messages + 3) / 4
    ∧ totalChars messages ≤ 4 * estimateTokens messages
    ∧ 4 * estimateTokens messages < totalChars messages + 4 := by
  refine ⟨estimateTokens_eq_totalChars messages, ?_, ?_⟩ <;>
    rw [estimateTokens_eq_totalChars] <;> omega

/-- Claim C8: removing messages from a sequence (any sublist) never increases
the token estimate. -/
theorem claim_C8_estimate_monotone (l₁ l₂ : List JsValue)
    (h : l₁.Sublist l₂) : estimateTokens l₁ ≤ estimateTokens l₂ := by
  rw [estimateTokens_eq_totalChars, estimateTokens_eq_totalChars]
  have hs : totalChars l₁ ≤ totalChars l₂ := by
    unfold totalChars
    exact List.Sublist.sum_le_sum (h.map messageChars) (fun a _ => Nat.zero_le a)
  exact Nat.div_le_div_right (Nat.add_le_add_right hs 3)

theorem claim_C8_witness :
    estimateTokens [JsValue.obj [("content", .str "hello")]]
      ≤ estimateTokens [JsValue.obj [("content", .str "abcd")],
                        JsValue.obj [("content", .str "hello")]] :=
  claim_C8_estimate_monotone _ _
    (List.sublist_cons_self (JsValue.obj [("content", .str "abcd")]) _)

/-- Claim C10: a content block that is an object with a `text` property whose
value is not a string contributes the length of the string rendering of that
value (zero for `null` and `undefined`, which the source maps to the empty
string via `?? ""`), rather than contributing zero as an unrecognized
shape; e.g. a numeric `text` value 1234 contributes 4 characters. -/
theorem claim_C10_nonstring_text (v : JsValue) (h : ∀ s, v ≠ JsValue.str s) :
    (v ≠ .null → v ≠ .undefined →
      blockChars (.obj [("text", v)]) = (jsString v).length)
    ∧ blockChars (.obj [("text", .null)]) = 0
    ∧ blockChars (.obj [("text", .undefined)]) = 0
    ∧ estimateTokens [.obj [("content", .arr [.obj [("text", .num 1234)]])]] = 1
    ∧ estimateTokens [.obj [("content", .arr [.obj [("text", .null)]])]] = 0 := by
    refine ⟨?_, by decide, by decide, by decide, by decide⟩
    intro hn hu
    cases v with
    | str s => exact absurd rfl (h s)
    | null => exact absurd rfl hn
    | undefined => exact absurd rfl hu
    | num n => rfl
    | jsBool b => rfl
    | date t => rfl
    | arr l => rfl
    | obj fs => rfl

theorem claim_C10_witness :
    blockChars (.obj [("text", JsValue.num 1234)]) = 4 := by
  have h := claim_C10_nonstring_text (.num 1234) (fun s hc => JsValue.noConfusion hc)
  have h2 := h.1 (fun hc => JsValue.noConfusion hc) (fun hc => JsValue.noConfusion hc)
  rw [h2]
  decide

/-- Claim C1: when the summary store is absent (no file, unreadable file, or
a file whose JSON fails to parse) or its summary sequence is empty, the
assembler short-circuits: summary text empty, `recentMessages` is the full
input list itself (unfiltered), `wasSummarized = false`, `summaryCount = 0`. -/
theorem claim_C1_no_summary_fallback
    (fsRead : String → FsRead) (jsonParse : String → Option JsValue)
    (dateParse : String → Option Int) (home : String) (now : Int)
    (sessionId : String) (allMessages : List JsValue) (sf : SummaryFile)
    (h : loadStoredSummaries fsRead jsonParse home sessionId = none
      ∨ (loadStoredSummaries fsRead jsonParse home sessionId
            = some (encodeSummaryFile sf)
         ∧ sf.summaries = [])) :
    loadCompactedContext fsRead jsonParse dateParse home now sessionId allMessages
      = .ok ⟨"", allMessages, false, 0⟩ := by
  rcases h with h | ⟨h, hempty⟩
  · exact loadCompactedContext_of_load_none _ _ _ _ _ _ _ h
  · rw [loadCompactedContext_of_load_encode _ _ _ _ _ _ _ _ h]
    rw [if_pos (by rw [hempty]; rfl)]

theorem claim_C1_witness :
    loadCompactedContext (fun _ => .absent) (fun _ => none) dpNone "home" 0 "s"
      [msgNoTs] = .ok ⟨"", [msgNoTs], false, 0⟩ :=
  claim_C1_no_summary_fallback (fun _ => .absent) (fun _ => none) dpNone
    "home" 0 "s" [msgNoTs] ⟨[], none, 0⟩ (Or.inl rfl)

/-- Claim C2 counterexample: a stored document that is valid JSON but does
not have the `SummaryFile` shape is returned by `loadStoredSummaries` as a
non-absent value (the `as SummaryFile` cast performs no validation), and
`loadCompactedContext` on that session then throws a `TypeError` (reading
`.length` of the `undefined` value `summaryFile.summaries`) instead of taking
the silent no-summary fallback. -/
theorem claim_C2_counterexample :
    loadStoredSummaries (fun _ => .ok "\x7b\"foo\": 1\x7d")
        (fun raw => if raw = "\x7b\"foo\": 1\x7d"
          then some (.obj [("foo", .num 1)]) else none) "home" "s"
      = some (.obj [("foo", .num 1)])
    ∧ loadCompactedContext (fun _ => .ok "\x7b\"foo\": 1\x7d")
        (fun raw => if raw = "\x7b\"foo\": 1\x7d"
          then some (.obj [("foo", .num 1)]) else none) dpNone "home" 0 "s" []
      = .error .typeError := by
  constructor
  · simp [loadStoredSummaries]
  · simp [loadCompactedContext, loadStoredSummaries, jsTruthy, jsGetProp, jsGet]

/-- Claim C2 (corrected): `loadStoredSummaries` returns absent (null)
whenever the stored resource does not exist, is unreadable, or fails JSON
parsing; these outcomes are silent and `loadCompactedContext` then takes the
no-summary fallback without any error.  (A resource that parses as JSON but
does not have the `SummaryFile` shape is, by contrast, returned unvalidated
and can make the assembler throw — see the counterexample.) -/
theorem claim_C2_silent_absent
    (fsRead : String → FsRead) (jsonParse : String → Option JsValue)
    (dateParse : String → Option Int) (home : String) (now : Int)
    (sessionId : String) (allMessages : List JsValue)
    (h : fsRead (summaryPath home sessionId) = .absent
      ∨ fsRead (summaryPath home sessionId) = .readError
      ∨ ∀ raw, fsRead (summaryPath home sessionId) = .ok raw →
          jsonParse raw = none) :
    loadStoredSummaries fsRead jsonParse home sessionId = none
    ∧ loadCompactedContext fsRead jsonParse dateParse home now sessionId
        allMessages = .ok ⟨"", allMessages, false, 0⟩ := by
  have hload : loadStoredSummaries fsRead jsonParse home sessionId = none := by
    unfold loadStoredSummaries
    rcases h with h | h | h
    · rw [h]
    · rw [h]
    · cases hr : fsRead (summaryPath home sessionId) with
      | absent => rfl
      | readError => rfl
      | ok raw => exact h raw hr
  exact ⟨hload, loadCompactedContext_of_load_none _ _ _ _ _ _ _ hload⟩

theorem claim_C2_witness :
    loadStoredSummaries (fun _ => .readError) (fun _ => none) "home" "s" = none :=
  (claim_C2_silent_absent (fun _ => .readError) (fun _ => none) dpNone
    "home" 0 "s" [] (Or.inr (Or.inl rfl))).1

/-- Claim C3 counterexample: a message whose `timestamp` field holds an
Invalid Date object has no extractable **valid** timestamp, yet when
summaries exist it is dropped from `recentMessages`: line 65 returns the
`instanceof Date` value without a validity check, the object is truthy, and
the `NaN` comparison `ts >= cutoffTime` on line 125 is false.  Here the
extractor returns the Invalid Date (`some none`, not the `null` of a
missing/unparseable field) and the assembled context has an empty
`recentMessages`, the message absent. -/
theorem claim_C3_counterexample :
    extractTimestamp dpNone msgInvalidDate = some none
    ∧ loadCompactedContext fsW jpW1 dpNone "home" 10000000 "s" [msgInvalidDate]
        = .ok ⟨formatSummariesAsContext sfW1.summaries, [], true, 1⟩
    ∧ ¬ msgInvalidDate ∈
        (CompactedContext.recentMessages
          ⟨formatSummariesAsContext sfW1.summaries, [], true, 1⟩) :=
  ⟨rfl, rfl, List.not_mem_nil _⟩

/-- Claim C3 (corrected): whenever the assembler returns successfully, every
input message for which timestamp extraction returned `null` — no
timestamp-bearing field, a nullish one, or an unparseable string/number —
is present in `recentMessages`, regardless of the window (in the no-summary
fallback the full list is returned; in the summarized path the filter keeps
every message without an extracted timestamp).  A field holding an Invalid
Date **object** is the exception: it is returned unvalidated, compares
false against the cutoff, and the message is dropped whenever summaries
exist (see the counterexample). -/
theorem claim_C3_null_timestamp_retained
    (fsRead : String → FsRead) (jsonParse : String → Option JsValue)
    (dateParse : String → Option Int) (home : String) (now : Int)
    (sessionId : String) (allMessages : List JsValue) (ctx : CompactedContext)
    (msg : JsValue)
    (hok : loadCompactedContext fsRead jsonParse dateParse home now sessionId
        allMessages = .ok ctx)
    (hmem : msg ∈ allMessages)
    (hts : extractTimestamp dateParse msg = none) :
    msg ∈ ctx.recentMessages := by
  rcases loadCompactedContext_ok_recent _ _ _ _ _ _ _ _ hok with h | h
  · rw [h]; exact hmem
  · rw [h]
    exact List.mem_filter.mpr ⟨hmem, by simp [keepMessage, hts]⟩

theorem claim_C3_witness :
    msgNoTs ∈ (CompactedContext.recentMessages
      ⟨formatSummariesAsContext sfW1.summaries, [msgNoTs], true, 1⟩) :=
  claim_C3_null_timestamp_retained fsW jpW1 dpNone "home" 10000000 "s"
    [msgNoTs] ⟨formatSummariesAsContext sfW1.summaries, [msgNoTs], true, 1⟩
    msgNoTs rfl (List.mem_singleton_self _) rfl

/-- Claim C4 counterexample: the bullet lines produced by
`formatSummariesAsContext` do not have the claimed form with a bullet
character: the source file literal is the mojibake three-character sequence
(the UTF-8 bytes of the bullet re-decoded as Windows-1252), and no bullet
character occurs anywhere in the output. -/
theorem claim_C4_counterexample :
    formatSummariesAsContext [summaryA]
      = "[Context: Earlier conversation summary - for reference only]\nâ€¢ 09:00: hello\n[End summary - respond briefly to recent messages below]\n"
    ∧ ¬ ('•' ∈ (formatSummariesAsContext [summaryA]).data) := by
  constructor
  · rfl
  · decide

/-- Claim C4 (corrected): for a summary sequence of length `n`, `format`
returns the empty string when `n = 0`, and otherwise exactly `min(n, 6)`
bullet lines — the last 6 of the stored order when `n > 6`, rendered in their
original order — framed by the fixed header and footer lines; each bullet
line has the form of the mojibake bullet sequence followed by
`<period>: <text>` (the source bullet literal is mojibake, not a bullet
character). -/
theorem claim_C4_cap_and_frame (l : List StoredSummary) (h : l ≠ []) :
    formatSummariesAsContext [] = ""
    ∧ (l.drop (l.length - 6)).length = min l.length 6
    ∧ (l.drop (l.length - 6)).IsSuffix l
    ∧ formatSummariesAsContext l
        = "[Context: Earlier conversation summary - for reference only]\n"
          ++ String.intercalate "\n"
              ((l.drop (l.length - 6)).map
                (fun s => "â€¢ " ++ s.period ++ ": " ++ s.text))
          ++ "\n[End summary - respond briefly to recent messages below]\n" := by
  refine ⟨rfl, ?_, List.drop_suffix _ _, ?_⟩
  · rw [List.length_drop]
    omega
  · have hlen : l.length ≠ 0 := by
      simpa [List.length_eq_zero] using h
    unfold formatSummariesAsContext
    rw [if_neg hlen]
    rfl

theorem claim_C4_witness :
    formatSummariesAsContext [summaryA]
      = "[Context: Earlier conversation summary - for reference only]\n"
        ++ String.intercalate "\n"
            (([summaryA].drop ([summaryA].length - 6)).map
              (fun s => "â€¢ " ++ s.period ++ ": " ++ s.text))
        ++ "\n[End summary - respond briefly to recent messages below]\n" :=
  (claim_C4_cap_and_frame [summaryA] (by decide)).2.2.2

/-- Claim C5: when well-typed summaries exist (so the recency filter
applies), a message with an extractable valid timestamp is kept in
`recentMessages` if and only if its timestamp is at or after
`now - KEEP_RECENT_MINUTES * 60 * 1000` — the boundary is inclusive, and any
timestamp strictly before the cutoff is excluded. -/
theorem claim_C5_boundary_inclusive
    (fsRead : String → FsRead) (jsonParse : String → Option JsValue)
    (dateParse : String → Option Int) (home : String) (now : Int)
    (sessionId : String) (allMessages : List JsValue) (sf : SummaryFile)
    (ctx : CompactedContext) (msg : JsValue) (t : Int)
    (hload : loadStoredSummaries fsRead jsonParse home sessionId
      = some (encodeSummaryFile sf))
    (hne : sf.summaries ≠ [])
    (hok : loadCompactedContext fsRead jsonParse dateParse home now sessionId
        allMessages = .ok ctx)
    (hmem : msg ∈ allMessages)
    (hts : extractTimestamp dateParse msg = some (some t)) :
    msg ∈ ctx.recentMessages ↔ now - KEEP_RECENT_MINUTES * 60 * 1000 ≤ t := by
  have hlen : sf.summaries.length ≠ 0 := by
    simpa [List.length_eq_zero] using hne
  rw [loadCompactedContext_of_load_encode _ _ _ _ _ _ _ _ hload,
    if_neg hlen] at hok
  simp only [Except.ok.injEq] at hok
  rw [← hok]
  simp only [List.mem_filter, keepMessage, hts, hmem, true_and,
    decide_eq_true_eq]

theorem claim_C5_witness :
    (msgAtCutoff ∈ (CompactedContext.recentMessages
      ⟨formatSummariesAsContext sfW1.summaries, [msgAtCutoff], true, 1⟩))
    ∧ extractTimestamp dpNone msgAtCutoff = some (some 6400000) := by
  constructor
  · exact (claim_C5_boundary_inclusive fsW jpW1 dpNone "home" 10000000 "s"
      [msgAtCutoff] sfW1
      ⟨formatSummariesAsContext sfW1.summaries, [msgAtCutoff], true, 1⟩
      msgAtCutoff 6400000 rfl (by decide) rfl (List.mem_singleton_self _)
      rfl).mpr (by decide)
  · rfl

/-- Claim C9: whenever the assembler returns successfully on a session whose
store is absent or holds a well-typed `SummaryFile`, `wasSummarized` is true
exactly when the summary text is non-empty, and when it is true
`summaryCount` equals the total number of stored summaries before the
formatting cap of 6. -/
theorem claim_C9_summarized_iff
    (fsRead : String → FsRead) (jsonParse : String → Option JsValue)
    (dateParse : String → Option Int) (home : String) (now : Int)
    (sessionId : String) (allMessages : List JsValue) (sf : SummaryFile)
    (ctx : CompactedContext)
    (hload : loadStoredSummaries fsRead jsonParse home sessionId = none
      ∨ loadStoredSummaries fsRead jsonParse home sessionId
          = some (encodeSummaryFile sf))
    (hok : loadCompactedContext fsRead jsonParse dateParse home now sessionId
        allMessages = .ok ctx) :
    (ctx.wasSummarized = true ↔ ctx.summaryPrefixText ≠ "")
    ∧ (ctx.wasSummarized = true →
        ctx.summaryCount = (sf.summaries.length : Int)) := by
  rcases hload with hload | hload
  · rw [loadCompactedContext_of_load_none _ _ _ _ _ _ _ hload] at hok
    simp only [Except.ok.injEq] at hok
    rw [← hok]
    constructor
    · simp
    · intro hfalse
      cases hfalse
  · rw [loadCompactedContext_of_load_encode _ _ _ _ _ _ _ _ hload] at hok
    by_cases hz : sf.summaries.length = 0
    · rw [if_pos hz] at hok
      simp only [Except.ok.injEq] at hok
      rw [← hok]
      constructor
      · simp
      · intro hfalse
        cases hfalse
    · rw [if_neg hz] at hok
      simp only [Except.ok.injEq] at hok
      rw [← hok]
      refine ⟨?_, fun _ => rfl⟩
      simp only [true_iff]
      exact formatSummariesAsContext_ne_empty sf.summaries hz

theorem claim_C9_witness :
    (CompactedContext.summaryPrefixText
      ⟨formatSummariesAsContext sfW1.summaries, [], true, 1⟩) ≠ ""
    ∧ (CompactedContext.summaryCount
      ⟨formatSummariesAsContext sfW1.summaries, [], true, 1⟩) = 1 := by
  have h := claim_C9_summarized_iff fsW jpW1 dpNone "home" 0 "s" [] sfW1
    ⟨formatSummariesAsContext sfW1.summaries, [], true, 1⟩ (Or.inr rfl) rfl
  exact ⟨h.1.mp rfl, h.2 rfl⟩
